import Mathlib

/-!
Verification development for the fastd cryptographic core.

The definitions below are a shallow embedding of the C sources:

* `src/src/methods/common.c` — record-layer common state: nonce validity
  and the reorder window (`fastd_method_common_init`,
  `fastd_method_is_nonce_valid`, `fastd_method_reorder_check`);
* the ec25519-fhmqvc protocol file — `establish`, `protocol_send`,
  `protocol_handle_recv`, `protocol_handshake_handle` and their helpers.

Machine integers are modelled as `Nat`/`Int`; `uint64_t` values are kept
below `2 ^ 64` by construction.  Timestamps (`struct timespec`) are
modelled as a monotonic clock in milliseconds (`Int`); `timespec_diff`
(declared in the missing `fastd.h`) is modelled from the spec as the
millisecond difference of two such timestamps.

The C sources shift `receive_reorder_seen` and the constant `1` by
possibly negative counts (`session->receive_reorder_seen >>= age` and
`1 >> (age+1)` with `age < 0`), which is undefined behaviour in C.  We
concretize these with the semantics the compiled code has on x86-64 and
other mainstream targets: variable shift counts are masked to the width
of the shifted operand (6 bits for a 64-bit operand, 5 bits for `int`),
i.e. the effective count is the count taken modulo 64 resp. 32.
-/

set_option maxRecDepth 4000

namespace Fastd

/-- A 6-byte little-endian nonce (`uint8_t nonce[COMMON_NONCEBYTES]`,
`COMMON_NONCEBYTES = 6`); byte `b0` is the least significant one. -/
structure Nonce where
  b0 : Nat
  b1 : Nat
  b2 : Nat
  b3 : Nat
  b4 : Nat
  b5 : Nat
deriving DecidableEq

/-- The all-zero nonce (the `memset` initial value). -/
def Nonce.zero : Nonce := ⟨0, 0, 0, 0, 0, 0⟩

/-- The little-endian value of a nonce, as an integer. -/
def Nonce.leVal (n : Nonce) : Int :=
  (n.b0 : Int) + 256 * ((n.b1 : Int) + 256 * ((n.b2 : Int) + 256 *
    ((n.b3 : Int) + 256 * ((n.b4 : Int) + 256 * (n.b5 : Int)))))

/-- Configuration options consumed by the record layer
(fields of `ctx->conf` used by `common.c`). -/
structure Conf where
  key_valid : Nat
  key_refresh : Nat
  key_refresh_splay : Nat
  reorder_time : Nat
  reorder_count : Nat
  keepalive_interval : Nat
deriving DecidableEq

/-- Modelled from the spec: `timespec_diff` (declared in `fastd.h`, which is
not part of this tree) returns the difference of two monotonic timestamps
in milliseconds; timestamps are modelled directly in milliseconds. -/
def timespec_diff (a b : Int) : Int := a - b

/-- The record-layer common session state (`fastd_method_common_t`).
`receive_reorder_seen` is a `uint64_t` bitmap; timestamps are in
milliseconds. -/
structure MethodCommon where
  send_nonce : Nonce
  receive_nonce : Nonce
  receive_reorder_seen : Nat
  receive_last : Int
  valid_till : Int
  refresh_after : Int
deriving DecidableEq

/-- Embedding of `fastd_method_common_init`.  `rand` is the value returned
by the call `fastd_rand(ctx, 0, ctx->conf->key_refresh_splay)`; `now` is
`ctx->now` in milliseconds (so `tv_sec += k` becomes `+ k * 1000`). -/
def fastd_method_common_init (conf : Conf) (now : Int) (rand : Nat)
    (initiator : Bool) : MethodCommon :=
  { send_nonce := if initiator then ⟨3, 0, 0, 0, 0, 0⟩ else ⟨2, 0, 0, 0, 0, 0⟩
    receive_nonce := if initiator then Nonce.zero else ⟨1, 0, 0, 0, 0, 0⟩
    receive_reorder_seen := 0
    receive_last := 0
    valid_till := now + (conf.key_valid : Int) * 1000
    refresh_after := now + ((conf.key_refresh : Int) - (rand : Int)) * 1000 }

/-- The loop of `fastd_method_is_nonce_valid` computing `*age` before the
division: for `i` from 5 down to 0, `age = age * 256 +
(receive_nonce[i] - nonce[i])`. -/
def nonceDiff (r n : Nonce) : Int :=
  ((((((0 : Int) * 256 + ((r.b5 : Int) - (n.b5 : Int))) * 256
    + ((r.b4 : Int) - (n.b4 : Int))) * 256
    + ((r.b3 : Int) - (n.b3 : Int))) * 256
    + ((r.b2 : Int) - (n.b2 : Int))) * 256
    + ((r.b1 : Int) - (n.b1 : Int))) * 256
    + ((r.b0 : Int) - (n.b0 : Int))

/-- Embedding of `fastd_method_is_nonce_valid`.  The C function returns a
`bool` and writes the signed age (the nonce difference divided by 2, with
C truncating division `Int.tdiv`) through an out-parameter that callers
read only on success; we return `some age` for `true` and `none` for
`false`. -/
def fastd_method_is_nonce_valid (conf : Conf) (now : Int)
    (session : MethodCommon) (nonce : Nonce) : Option Int :=
  if (nonce.b0 &&& 1) ≠ (session.receive_nonce.b0 &&& 1) then
    none
  else
    let age := (nonceDiff session.receive_nonce nonce).tdiv 2
    if 0 ≤ age then
      if timespec_diff now session.receive_last > (conf.reorder_time : Int) * 1000 then
        none
      else if age > (conf.reorder_count : Int) then
        none
      else
        some age
    else
      some age

/-- Value of the C expression `x >> k` where `x` is a `uint64_t` and `k` an
`int64_t` that may be negative (undefined behaviour in C); concretized
with the x86-64 semantics: the shift count is masked to 6 bits, i.e.
taken modulo 64. -/
def c_shr_u64 (x : Nat) (k : Int) : Nat :=
  (x % 2 ^ 64) >>> (k.emod 64).toNat

/-- Value of the C expression `1 >> k` where `1` is an `int` and `k` may be
negative (undefined behaviour in C); concretized with the x86-64
semantics: the shift count is masked to 5 bits, i.e. taken modulo 32. -/
def c_shr1_int (k : Int) : Nat :=
  1 >>> (k.emod 32).toNat

/-- Value of the C expression `1 << k` (`int` operands) as converted to
`uint64_t` by the usual arithmetic conversions.  The shift count is
masked to 5 bits; an effective count of 31 overflows `int` to `INT_MIN`,
whose conversion to `uint64_t` sign-extends. -/
def c_shl1_int_as_u64 (k : Int) : Nat :=
  let m := (k.emod 32).toNat
  if m = 31 then 2 ^ 64 - 2 ^ 31 else 1 <<< m

/-- Embedding of `fastd_method_reorder_check`.  Returns the `bool` result
together with the updated session state (the C function mutates
`session` in place). -/
def fastd_method_reorder_check (now : Int) (session : MethodCommon)
    (nonce : Nonce) (age : Int) : Bool × MethodCommon :=
  if age < 0 then
    let seen := c_shr_u64 session.receive_reorder_seen age
    let seen := seen ||| c_shr1_int (age + 1)
    (true, { session with
               receive_reorder_seen := seen
               receive_nonce := nonce
               receive_last := now })
  else if age = 0 ∨ session.receive_reorder_seen &&& c_shl1_int_as_u64 (age - 1) ≠ 0 then
    (false, session)
  else
    (true, { session with
               receive_reorder_seen :=
                 session.receive_reorder_seen ||| c_shl1_int_as_u64 (age - 1) })

/-- One receive-side check as described by claim C1: the nonce check
`fastd_method_is_nonce_valid` followed, on success, by
`fastd_method_reorder_check` (this is how the method implementations
invoke the two helpers).  Returns the acceptance verdict and the updated
state; on a rejected nonce the state is unchanged. -/
def fastd_method_receive_step (conf : Conf) (now : Int)
    (session : MethodCommon) (nonce : Nonce) : Bool × MethodCommon :=
  match fastd_method_is_nonce_valid conf now session nonce with
  | none => (false, session)
  | some age => fastd_method_reorder_check now session nonce age

/-- The reorder-check update exactly as claim C2 describes it: for
`age < 0` shift the seen-bitmap right by `|age|` and set bit 0; for
`age = 0` or bit `age - 1` set, reject unchanged; otherwise set bit
`age - 1`. -/
def reorder_check_claimed (now : Int) (session : MethodCommon)
    (nonce : Nonce) (age : Int) : Bool × MethodCommon :=
  if age < 0 then
    (true, { session with
               receive_reorder_seen :=
                 (session.receive_reorder_seen >>> (-age).toNat) ||| 1
               receive_nonce := nonce
               receive_last := now })
  else if age = 0 ∨ session.receive_reorder_seen.testBit (age - 1).toNat then
    (false, session)
  else
    (true, { session with
               receive_reorder_seen :=
                 session.receive_reorder_seen ||| 2 ^ (age - 1).toNat })

/-- The nonce-validity predicate exactly as claim C3 states it: parity
must match, and either the candidate is newer (`age < 0`) with the last
accepted packet inside the reorder-time window, or the candidate is
older by at most `reorder_count` positions. -/
def is_nonce_valid_claimed (conf : Conf) (now : Int)
    (session : MethodCommon) (nonce : Nonce) : Bool :=
  let age := (nonceDiff session.receive_nonce nonce).tdiv 2
  decide ((nonce.b0 &&& 1) = (session.receive_nonce.b0 &&& 1)) &&
    (decide (age < 0) &&
       decide (timespec_diff now session.receive_last ≤ (conf.reorder_time : Int) * 1000) ||
     decide (0 ≤ age) && decide (age ≤ (conf.reorder_count : Int)))

/-- A configuration used by the concrete traces below. -/
def confW : Conf :=
  { key_valid := 3600
    key_refresh := 3600
    key_refresh_splay := 600
    reorder_time := 10
    reorder_count := 64
    keepalive_interval := 10 }

/-! The ec25519-fhmqvc protocol layer.  The method implementation behind
`ctx->conf->method` is not part of this tree; per the spec's method
interface, `session_init(secret, initiator)` creates a state from the
32-byte shared secret and the initiator flag, `session_is_valid` is false
for a NULL state, and `session_is_initiator` reports the stored flag. -/

/-- An abstract method session state (`fastd_method_session_state`), as
created by `method->session_init(ctx, secret, initiator)`: it records the
shared secret and the initiator flag. -/
structure MethodState where
  secret : List Nat
  isInitiator : Bool
deriving DecidableEq

/-- One protocol session (`struct _protocol_session`); `method_state` is
`none` when the C pointer is NULL. -/
structure ProtocolSession where
  handshakes_cleaned : Bool
  refreshing : Bool
  method_state : Option MethodState
deriving DecidableEq

/-- Per-peer protocol state (`struct _fastd_protocol_peer_state`). -/
structure PeerState where
  old_session : ProtocolSession
  session : ProtocolSession
deriving DecidableEq

/-- Modelled from the spec: the behaviour of the configured method's
`session_is_valid` and `session_want_refresh` on a non-NULL state (the
method implementation files are not part of this tree). -/
structure MethodEnv where
  valid : MethodState → Bool
  want_refresh : MethodState → Bool

/-- Embedding of `is_session_valid`: the method's `session_is_valid`,
which is false for a NULL `method_state`. -/
def is_session_valid (menv : MethodEnv) (s : ProtocolSession) : Bool :=
  match s.method_state with
  | none => false
  | some m => menv.valid m

/-- The method's `session_is_initiator` on a session's `method_state`; it
reports the flag passed to `session_init` (only reached on sessions whose
state is non-NULL; a NULL state is mapped to `false`). -/
def session_is_initiator (s : ProtocolSession) : Bool :=
  match s.method_state with
  | none => false
  | some m => m.isInitiator

/-- The method's `session_want_refresh` on a session's `method_state`. -/
def session_want_refresh (menv : MethodEnv) (s : ProtocolSession) : Bool :=
  match s.method_state with
  | none => false
  | some m => menv.want_refresh m

/-- Observable actions of the protocol handlers.  Buffer ids (`Nat`) name
the packet buffers: `free b` is `fastd_buffer_free`, `consume b` marks
the buffer being handed to the method (which frees it after use),
`deliver b` is `fastd_handle_receive`, `net_send b` is `fastd_send`.
`send_confirm` stands for the nested `protocol_send` call on a freshly
allocated zero-length buffer. -/
inductive Event where
  | schedule_handshake
  | free (b : Nat)
  | consume (b : Nat)
  | deliver (b : Nat)
  | net_send (b : Nat)
  | decrypt_old
  | decrypt_current
  | use_old
  | use_current
  | delete_peer_handshakes
  | delete_peer_keepalives
  | schedule_keepalive
  | peer_seen
  | session_move_to_old
  | session_free_current
  | session_free_old
  | install_method_state
  | claim_address
  | peer_reset
  | set_established
  | send_confirm
deriving DecidableEq

/-- Embedding of `check_session_refresh`. -/
def check_session_refresh (menv : MethodEnv) (st : PeerState) :
    PeerState × List Event :=
  if ¬st.session.refreshing ∧ session_is_initiator st.session ∧
      session_want_refresh menv st.session then
    ({ st with session := { st.session with refreshing := true } },
     [Event.schedule_handshake])
  else
    (st, [])

/-- The delivery tail of `protocol_handle_recv`: a decrypted buffer with
nonzero length is delivered upward, a zero-length one (keepalive) is
freed. -/
def recv_tail (len : Nat) (bOut : Nat) : List Event :=
  if len ≠ 0 then [Event.deliver bOut] else [Event.free bOut]

/-- Embedding of `protocol_handle_recv`.  `established` and `hasState`
model `fastd_peer_is_established(peer)` and
`peer->protocol_state != NULL`; `decOld`/`decCur` are the outcomes of the
method's `decrypt` on the old resp. current session (`some len` is a
success producing a plaintext of length `len`).  Modelled from the spec's
buffer discipline: `decrypt` frees the input buffer on success (having
produced a fresh output buffer, here named `bOut`) and leaves it with the
caller on failure.  Returns the updated peer state and the emitted
events, in program order. -/
def protocol_handle_recv (menv : MethodEnv) (established hasState : Bool)
    (decOld decCur : Option Nat) (st : PeerState) (b bOut : Nat) :
    PeerState × List Event :=
  if ¬established then
    (st, [Event.schedule_handshake, Event.free b])
  else if ¬hasState ∨ ¬is_session_valid menv st.session then
    (st, [Event.free b])
  else if is_session_valid menv st.old_session ∧ decOld.isSome then
    (st, [Event.decrypt_old, Event.consume b, Event.peer_seen] ++
      recv_tail (decOld.getD 0) bOut)
  else
    let evts0 := if is_session_valid menv st.old_session then [Event.decrypt_old] else []
    match decCur with
    | none => (st, evts0 ++ [Event.decrypt_current, Event.free b])
    | some len =>
      let r1 :=
        if ¬st.session.handshakes_cleaned then
          ({ st with session := { st.session with handshakes_cleaned := true } },
           [Event.delete_peer_handshakes] ++
             (if session_is_initiator st.session then [Event.send_confirm] else []))
        else
          (st, [])
      let r2 :=
        if r1.1.old_session.method_state.isSome then
          ({ r1.1 with old_session := { r1.1.old_session with method_state := none } },
           [Event.session_free_old])
        else
          (r1.1, [])
      let r3 := check_session_refresh menv r2.1
      (r3.1, evts0 ++ [Event.decrypt_current, Event.consume b] ++ r1.2 ++ r2.2 ++
        r3.2 ++ [Event.peer_seen] ++ recv_tail len bOut)

/-- Embedding of `protocol_send`.  `encOldOk`/`encCurOk` are the outcomes
of the method's `encrypt` on the old resp. current session; on success
the input buffer is consumed by the method and the ciphertext buffer
`bEnc` is transmitted, on failure the input buffer is freed by the
handler (spec buffer discipline, as for decrypt). -/
def protocol_send (menv : MethodEnv) (hasState : Bool)
    (encOldOk encCurOk : Bool) (st : PeerState) (b bEnc : Nat) :
    PeerState × List Event :=
  if ¬hasState ∨ ¬is_session_valid menv st.session then
    (st, [Event.free b])
  else
    let r := check_session_refresh menv st
    if session_is_initiator r.1.session ∧ is_session_valid menv r.1.old_session then
      if encOldOk then
        (r.1, r.2 ++ [Event.use_old, Event.consume b, Event.net_send bEnc,
          Event.delete_peer_keepalives, Event.schedule_keepalive])
      else
        (r.1, r.2 ++ [Event.use_old, Event.free b])
    else
      if encCurOk then
        (r.1, r.2 ++ [Event.use_current, Event.consume b, Event.net_send bEnc,
          Event.delete_peer_keepalives, Event.schedule_keepalive])
      else
        (r.1, r.2 ++ [Event.use_current, Event.free b])

/-- Modelled from the spec: `fastd_peer_reset` tears the peer down,
dropping its timers and destroying both protocol sessions. -/
def resetPeerState : PeerState :=
  { old_session := { handshakes_cleaned := false, refreshing := false, method_state := none }
    session := { handshakes_cleaned := false, refreshing := false, method_state := none } }

/-- The session secret installed by `establish`: the hash of the five
public values in the order the code concatenates them
(`hashinput = X || Y || A || B || sigma` in terms of the parameter names
of `establish`).  `H` stands for `crypto_hash_sha256`. -/
def establish_secret (H : List Nat → List Nat) (a b x y sigma : List Nat) :
    List Nat :=
  H (x ++ y ++ a ++ b ++ sigma)

/-- Embedding of `establish`.  `claimOk` is the result of
`fastd_peer_claim_address`; `H` stands for `crypto_hash_sha256`.  The
parameters `a b x y sigma` mirror the C parameters `A B X Y sigma`.
Returns the final peer state and the emitted events in program order. -/
def establish (menv : MethodEnv) (H : List Nat → List Nat) (claimOk : Bool)
    (initiator : Bool) (a b x y sigma : List Nat) (st : PeerState) :
    PeerState × List Event :=
  let r1 :=
    if is_session_valid menv st.session ∧ ¬is_session_valid menv st.old_session then
      ({ old_session := st.session, session := st.session },
       [Event.session_move_to_old])
    else
      ({ st with session := { st.session with method_state := none } },
       [Event.session_free_current])
  let st2 := { r1.1 with session :=
    { handshakes_cleaned := false
      refreshing := false
      method_state := some ⟨establish_secret H a b x y sigma, initiator⟩ } }
  let ev2 := r1.2 ++ [Event.install_method_state, Event.peer_seen, Event.claim_address]
  if ¬claimOk then
    (resetPeerState, ev2 ++ [Event.peer_reset])
  else
    (st2, ev2 ++ [Event.set_established, Event.schedule_keepalive] ++
      (if ¬initiator then [Event.send_confirm] else []))

/-- The `establish` call made by `finish_handshake` (initiator side):
`establish(ctx, peer_conf, address, true, &handshake_key->public_key,
peer_handshake_key, &ctx->conf->protocol_config->public_key,
&peer_conf->protocol_config->public_key, &sigma)`.  `localPub`/`peerPub`
are the long-term public keys, `localHsPub`/`peerHsPub` the handshake
public keys. -/
def finish_handshake_establish (menv : MethodEnv) (H : List Nat → List Nat)
    (claimOk : Bool) (localPub peerPub localHsPub peerHsPub sigma : List Nat)
    (st : PeerState) : PeerState × List Event :=
  establish menv H claimOk true localHsPub peerHsPub localPub peerPub sigma st

/-- The `establish` call made by `handle_finish_handshake` (responder
side): `establish(ctx, peer_conf, address, false, peer_handshake_key,
&handshake_key->public_key, &peer_conf->protocol_config->public_key,
&ctx->conf->protocol_config->public_key, &sigma)`. -/
def handle_finish_establish (menv : MethodEnv) (H : List Nat → List Nat)
    (claimOk : Bool) (localPub peerPub localHsPub peerHsPub sigma : List Nat)
    (st : PeerState) : PeerState × List Event :=
  establish menv H claimOk false peerHsPub localHsPub peerPub localPub sigma st

/-- A handshake TLV record as the handler sees it (`handshake->records[i]`):
its length and value.  An absent record has length 0. -/
structure HandshakeRecord where
  length : Nat
  data : List Nat
deriving DecidableEq

/-- The handshake fields consulted by `protocol_handshake_handle`: the
handshake type and the five protocol records (`RECORD_SENDER_KEY`,
`RECORD_RECEIPIENT_KEY`, `RECORD_SENDER_HANDSHAKE_KEY`,
`RECORD_RECEIPIENT_HANDSHAKE_KEY`, `RECORD_T`; spellings follow the
source). -/
structure Handshake where
  type : Nat
  sender_key : HandshakeRecord
  receipient_key : HandshakeRecord
  sender_handshake_key : HandshakeRecord
  receipient_handshake_key : HandshakeRecord
  record_t : HandshakeRecord
deriving DecidableEq

/-- Embedding of `has_field`. -/
def has_field (r : HandshakeRecord) (len : Nat) : Bool :=
  r.length == len

/-- One pool entry (`typedef struct _handshake_key`); timestamps in
milliseconds. -/
structure HandshakeKey where
  preferred_till : Int
  valid_till : Int
  secret_key : List Nat
  public_key : List Nat
deriving DecidableEq

/-- The process-wide handshake-key pool
(`struct _fastd_protocol_state`). -/
structure ProtocolState where
  prev_handshake_key : HandshakeKey
  handshake_key : HandshakeKey
deriving DecidableEq

/-- Modelled from the spec: `timespec_after(tp1, tp2)` (from the missing
`fastd.h`) holds when `tp1` is later than `tp2`. -/
def timespec_after (a b : Int) : Bool :=
  decide (b < a)

/-- Embedding of `is_handshake_key_valid`. -/
def is_handshake_key_valid (now : Int) (k : HandshakeKey) : Bool :=
  timespec_after k.valid_till now

/-- Embedding of `is_handshake_key_preferred`. -/
def is_handshake_key_preferred (now : Int) (k : HandshakeKey) : Bool :=
  timespec_after k.preferred_till now

/-- Embedding of `maintenance`: if the current handshake key is no longer
preferred, rotate it to the previous slot and install a fresh key valid
for 30 s and preferred for 15 s.  `freshSecret`/`freshPublic` are the new
key pair produced by `fastd_random_bytes` + `ecc_25519_secret_sanitize`
and `ecc_25519_scalarmult_base` (external primitives). -/
def maintenance (now : Int) (freshSecret freshPublic : List Nat)
    (pst : ProtocolState) : ProtocolState :=
  if is_handshake_key_preferred now pst.handshake_key then
    pst
  else
    { prev_handshake_key := pst.handshake_key
      handshake_key :=
        { preferred_till := now + 15 * 1000
          valid_till := now + 30 * 1000
          secret_key := freshSecret
          public_key := freshPublic } }

/-- The dispatch outcome of `protocol_handshake_handle`: either the
message is dropped, or one of the cryptographic handlers
(`respond_handshake`, `finish_handshake`, `handle_finish_handshake`) is
invoked with the located handshake key and the peer's handshake key. -/
inductive HandshakeAction where
  | drop
  | respond (k : HandshakeKey) (peerHs : List Nat)
  | finish (k : HandshakeKey) (peerHs : List Nat)
  | handle_finish (k : HandshakeKey) (peerHs : List Nat)
deriving DecidableEq

/-- The type-2/type-3 handshake-key lookup of `protocol_handshake_handle`:
the recipient handshake key is matched against the current and then the
previous pool entry, each also required to be valid; `mk` builds the
dispatch outcome from the located entry. -/
def locate_handshake_key (now : Int) (pst : ProtocolState) (h : Handshake)
    (mk : HandshakeKey → List Nat → HandshakeAction) : HandshakeAction :=
  if is_handshake_key_valid now pst.handshake_key ∧
      pst.handshake_key.public_key = h.receipient_handshake_key.data then
    mk pst.handshake_key h.sender_handshake_key.data
  else if is_handshake_key_valid now pst.prev_handshake_key ∧
      pst.prev_handshake_key.public_key = h.receipient_handshake_key.data then
    mk pst.prev_handshake_key h.sender_handshake_key.data
  else
    HandshakeAction.drop

/-- The record checks and dispatch of `protocol_handshake_handle`,
operating on the pool state `pst` left by the initial `maintenance`
call.  `localPub` is `ctx->conf->protocol_config->public_key`;
`matchSender` abstracts `match_sender_key` (whether the sender key maps
to a usable peer configuration). -/
def protocol_handshake_dispatch (localPub : List Nat)
    (matchSender : List Nat → Bool) (now : Int) (pst : ProtocolState)
    (h : Handshake) : HandshakeAction :=
  if ¬has_field h.sender_key 32 then
    HandshakeAction.drop
  else if ¬matchSender h.sender_key.data then
    HandshakeAction.drop
  else if h.type > 1 ∧ ¬has_field h.receipient_key 32 then
    HandshakeAction.drop
  else if has_field h.receipient_key 32 ∧ h.receipient_key.data ≠ localPub then
    HandshakeAction.drop
  else if ¬has_field h.sender_handshake_key 32 then
    HandshakeAction.drop
  else if h.type > 1 ∧ ¬has_field h.receipient_handshake_key 32 then
    HandshakeAction.drop
  else if h.type > 1 ∧ ¬has_field h.record_t 32 then
    HandshakeAction.drop
  else if h.type = 1 then
    HandshakeAction.respond pst.handshake_key h.sender_handshake_key.data
  else if h.type = 2 then
    locate_handshake_key now pst h HandshakeAction.finish
  else if h.type = 3 then
    locate_handshake_key now pst h HandshakeAction.handle_finish
  else
    HandshakeAction.drop

/-- Embedding of `protocol_handshake_handle`: first the `maintenance`
call updates the process-wide pool, then the record checks and the
dispatch run against the updated pool.  Returns the pool state after
`maintenance` and the dispatch outcome. -/
def protocol_handshake_handle (localPub : List Nat)
    (matchSender : List Nat → Bool) (now : Int)
    (freshSecret freshPublic : List Nat) (pst0 : ProtocolState)
    (h : Handshake) : ProtocolState × HandshakeAction :=
  let pst := maintenance now freshSecret freshPublic pst0
  (pst, protocol_handshake_dispatch localPub matchSender now pst h)

/-- Whether an event disposes of buffer `b` (frees it, hands it to the
method, delivers it upward, or transmits it). -/
def disposesBuf (b : Nat) : Event → Bool
  | Event.free b2 => b2 == b
  | Event.consume b2 => b2 == b
  | Event.deliver b2 => b2 == b
  | Event.net_send b2 => b2 == b
  | _ => false

/-- How many events of a trace dispose of buffer `b`. -/
def disposals (evts : List Event) (b : Nat) : Nat :=
  evts.countP (disposesBuf b)

/-- Whether `protocol_handle_recv` succeeds in decrypting (via either
session) for the given environment and state. -/
def recv_ok (menv : MethodEnv) (established hasState : Bool)
    (decOld decCur : Option Nat) (st : PeerState) : Bool :=
  established && hasState && is_session_valid menv st.session &&
    ((is_session_valid menv st.old_session && decOld.isSome) || decCur.isSome)

/-- Whether `protocol_send` reaches a successful encrypt (so that a
ciphertext buffer is produced and transmitted). -/
def send_ok (menv : MethodEnv) (hasState : Bool)
    (encOldOk encCurOk : Bool) (st : PeerState) : Bool :=
  hasState && is_session_valid menv st.session &&
    (if session_is_initiator st.session && is_session_valid menv st.old_session
     then encOldOk else encCurOk)

/-- A nonce whose low byte is `v` and whose other bytes are zero. -/
def nonceW (v : Nat) : Nonce := ⟨v, 0, 0, 0, 0, 0⟩

/-- A concrete reorder state used below: the latest accepted nonce is 9
and the bitmap records that the nonce two positions back (age 2, value 5)
has been seen. -/
def sC2 : MethodCommon :=
  { send_nonce := Nonce.zero
    receive_nonce := nonceW 9
    receive_reorder_seen := 2
    receive_last := 0
    valid_till := 0
    refresh_after := 0 }

/-- A concrete receive state whose last accepted packet is long in the
past (receive parity odd, as for a responder). -/
def sC3 : MethodCommon :=
  { send_nonce := Nonce.zero
    receive_nonce := nonceW 1
    receive_reorder_seen := 0
    receive_last := 0
    valid_till := 0
    refresh_after := 0 }

/-- A concrete method environment: every non-NULL state is valid, no
state wants a refresh. -/
def menvW : MethodEnv :=
  { valid := fun _ => true
    want_refresh := fun _ => false }

/-- A 32-byte value with every byte equal to `v`. -/
def rep32 (v : Nat) : List Nat := List.replicate 32 v

/-- A concrete peer state with a valid current session (initiator,
handshake not yet confirmed) and no old session. -/
def stC9 : PeerState :=
  { old_session := { handshakes_cleaned := false, refreshing := false, method_state := none }
    session := { handshakes_cleaned := false, refreshing := false,
                 method_state := some ⟨[7], true⟩ } }

/-- A concrete handshake pool: the current key is preferred and valid
with public key `rep32 3`; the previous key is expired. -/
def pstW : ProtocolState :=
  { prev_handshake_key :=
      { preferred_till := 0, valid_till := 0, secret_key := [1], public_key := rep32 7 }
    handshake_key :=
      { preferred_till := 2000000, valid_till := 3000000, secret_key := [2],
        public_key := rep32 3 } }

/-- A concrete well-formed type-2 handshake message addressed to the
local key `rep32 9` and to the pool's current handshake key. -/
def hsW : Handshake :=
  { type := 2
    sender_key := { length := 32, data := rep32 1 }
    receipient_key := { length := 32, data := rep32 9 }
    sender_handshake_key := { length := 32, data := rep32 2 }
    receipient_handshake_key := { length := 32, data := rep32 3 }
    record_t := { length := 32, data := rep32 4 } }

/-- A concrete type-1 handshake message carrying a present recipient-key
record whose value is not the local key `rep32 9`. -/
def hsBad : Handshake :=
  { type := 1
    sender_key := { length := 32, data := rep32 1 }
    receipient_key := { length := 32, data := rep32 8 }
    sender_handshake_key := { length := 32, data := rep32 2 }
    receipient_handshake_key := { length := 0, data := [] }
    record_t := { length := 0, data := [] } }

/-- A concrete peer state with both a current session (initiator) and an
old session present. -/
def stC7 : PeerState :=
  { old_session := { handshakes_cleaned := true, refreshing := false,
                     method_state := some ⟨[3], false⟩ }
    session := { handshakes_cleaned := false, refreshing := false,
                 method_state := some ⟨[7], true⟩ } }

/-! Theorems. -/

/-- Auxiliary: shifting the constant 1 right yields 1 for count 0 and 0
otherwise. -/
theorem one_shiftRight_eq (k : Nat) : 1 >>> k = if k = 0 then 1 else 0 := by
  induction k with
  | zero => rfl
  | succ k ih =>
    rw [Nat.shiftRight_succ, ih]
    rcases eq_or_ne k 0 with h | h <;> simp [h]

/-- Auxiliary: a masked single-bit test is the bit test. -/
theorem and_two_pow_ne_zero (x m : Nat) : x &&& 2 ^ m ≠ 0 ↔ x.testBit m = true := by
  rw [Nat.and_two_pow]
  rcases hb : x.testBit m <;> simp [hb]

/-- Auxiliary: the age loop of `fastd_method_is_nonce_valid` computes the
difference of the little-endian values. -/
theorem nonceDiff_eq_leVal (r n : Nonce) :
    nonceDiff r n = r.leVal - n.leVal := by
  unfold nonceDiff Nonce.leVal
  ring

/-- Auxiliary: `check_session_refresh` does not touch the old session. -/
theorem check_session_refresh_old (menv : MethodEnv) (st : PeerState) :
    (check_session_refresh menv st).1.old_session = st.old_session := by
  rw [check_session_refresh]
  split <;> rfl

/-- Auxiliary: `check_session_refresh` does not change who initiated the
current session (it only touches the `refreshing` flag). -/
theorem check_session_refresh_initiator (menv : MethodEnv) (st : PeerState) :
    session_is_initiator (check_session_refresh menv st).1.session =
      session_is_initiator st.session := by
  rw [check_session_refresh]
  split <;> rfl

/-- Auxiliary: `check_session_refresh` emits at most a handshake
scheduling event. -/
theorem check_session_refresh_events (menv : MethodEnv) (st : PeerState) :
    (check_session_refresh menv st).2 = [] ∨
      (check_session_refresh menv st).2 = [Event.schedule_handshake] := by
  rw [check_session_refresh]
  split
  · exact Or.inr rfl
  · exact Or.inl rfl

/-- Claim C1: on an established session no nonce is ever accepted twice.
The code violates this: starting from a responder session
(`fastd_method_common_init`), the nonce sequence 9, 5, 11, 5 is accepted
in full — the nonce 5 is accepted twice, because the `age < 0` branch of
`fastd_method_reorder_check` shifts the seen-bitmap by a negative count
and erases the record of nonce 5 when nonce 11 arrives. -/
theorem nonce_accepted_twice :
    (let s0 := fastd_method_common_init confW 0 0 false
     let t1 := fastd_method_receive_step confW 1000 s0 (nonceW 9)
     let t2 := fastd_method_receive_step confW 1000 t1.2 (nonceW 5)
     let t3 := fastd_method_receive_step confW 1000 t2.2 (nonceW 11)
     let t4 := fastd_method_receive_step confW 1000 t3.2 (nonceW 5)
     t1.1 = true ∧ t2.1 = true ∧ t3.1 = true ∧ t4.1 = true) := by decide

/-- Claim C2 (counterexample): at `age = -2` the code does not shift the
seen-bitmap right by `|age|` and set bit 0 — the C shift counts are
negative, and under the masked semantics the bitmap `0b10` becomes `0`
rather than the claimed `0b10 >> 2 ||| 1 = 1`. -/
theorem reorder_check_deviates_from_claimed :
    fastd_method_reorder_check 5 sC2 (nonceW 13) (-2) ≠
      reorder_check_claimed 5 sC2 (nonceW 13) (-2) := by decide

/-- Claim C2 (amended): for `age < 0`, `fastd_method_reorder_check`
shifts the seen-bitmap right by `age mod 64` (not `|age|`; 63 for
`age = -1`) and sets bit 0 exactly when `age + 1 ≡ 0 (mod 32)`, replaces
`receive_nonce`, updates `receive_last` and accepts — a consequence of
the C shift counts being negative; for `age = 0`, or `1 ≤ age ≤ 31` with
bit `age - 1` already set, it rejects and leaves the state unchanged; and
for `1 ≤ age ≤ 31` with bit `age - 1` clear it sets bit `age - 1` and
accepts.  (For `age ≥ 32` the 32-bit shift `1 << (age-1)` is masked and
sign-extended, so the claimed bit-`age-1` reading fails there as well;
such ages are excluded here.) -/
theorem reorder_check_characterization (now : Int) (s : MethodCommon)
    (n : Nonce) (age : Int) (hseen : s.receive_reorder_seen < 2 ^ 64)
    (hage : age ≤ 31) :
    fastd_method_reorder_check now s n age =
      if age < 0 then
        (true, { s with
          receive_reorder_seen :=
            (s.receive_reorder_seen >>> (age.emod 64).toNat) |||
              (if (age + 1).emod 32 = 0 then 1 else 0)
          receive_nonce := n
          receive_last := now })
      else if age = 0 ∨ s.receive_reorder_seen.testBit (age - 1).toNat then
        (false, s)
      else
        (true, { s with
          receive_reorder_seen :=
            s.receive_reorder_seen ||| 2 ^ (age - 1).toNat }) := by
  rcases lt_or_le age 0 with hneg | hpos
  · rw [fastd_method_reorder_check, if_pos hneg, if_pos hneg]
    have hmod : s.receive_reorder_seen % 2 ^ 64 = s.receive_reorder_seen :=
      Nat.mod_eq_of_lt hseen
    have hsh : c_shr1_int (age + 1) = if (age + 1).emod 32 = 0 then 1 else 0 := by
      rw [c_shr1_int, one_shiftRight_eq]
      have h32 : 0 ≤ (age + 1).emod 32 := Int.emod_nonneg _ (by decide)
      rcases eq_or_ne ((age + 1).emod 32) 0 with h | h
      · simp [h]
      · have : ((age + 1).emod 32).toNat ≠ 0 := by omega
        simp [h, this]
    rw [hsh, c_shr_u64, hmod]
  · have hnneg : ¬age < 0 := not_lt.mpr hpos
    rcases eq_or_ne age 0 with hz | hz
    · subst hz
      rw [fastd_method_reorder_check, if_neg hnneg, if_neg hnneg,
        if_pos (Or.inl rfl), if_pos (Or.inl rfl)]
    · have h1 : 1 ≤ age := by omega
      have hm : ((age - 1).emod 32).toNat = (age - 1).toNat := by
        have : (age - 1).emod 32 = age - 1 := Int.emod_eq_of_lt (by omega) (by omega)
        rw [this]
      have hm31 : (age - 1).toNat ≠ 31 := by omega
      have hbit : c_shl1_int_as_u64 (age - 1) = 2 ^ (age - 1).toNat := by
        rw [c_shl1_int_as_u64]
        simp only [hm, if_neg hm31]
        rw [Nat.shiftLeft_eq, one_mul]
      have htest : (s.receive_reorder_seen &&& c_shl1_int_as_u64 (age - 1) ≠ 0) ↔
          s.receive_reorder_seen.testBit (age - 1).toNat = true := by
        rw [hbit, and_two_pow_ne_zero]
      by_cases hb : s.receive_reorder_seen.testBit (age - 1).toNat = true
      · rw [fastd_method_reorder_check, if_neg hnneg, if_neg hnneg,
          if_pos (Or.inr (htest.mpr hb)), if_pos (Or.inr hb)]
      · rw [fastd_method_reorder_check, if_neg hnneg, if_neg hnneg]
        have hc : ¬(age = 0 ∨ s.receive_reorder_seen &&& c_shl1_int_as_u64 (age - 1) ≠ 0) := by
          rintro (h | h)
          · exact hz h
          · exact hb (htest.mp h)
        have hc2 : ¬(age = 0 ∨ s.receive_reorder_seen.testBit (age - 1).toNat = true) := by
          rintro (h | h)
          · exact hz h
          · exact hb h
        rw [if_neg hc, if_neg hc2, hbit]

/-- Witness for `reorder_check_characterization` at `age = 3` on the
concrete state `sC2`. -/
theorem reorder_check_characterization_witness :
    fastd_method_reorder_check 7 sC2 (nonceW 3) 3 =
      (true, { sC2 with receive_reorder_seen := 6 }) := by
  have h := reorder_check_characterization 7 sC2 (nonceW 3) 3 (by decide) (by decide)
  rw [h]
  decide

/-- Claim C3 (counterexample): a candidate newer than the last accepted
packet (`age < 0`) is accepted by `fastd_method_is_nonce_valid` even when
the last accepted packet is far outside the `reorder_time` window — the
code applies the time check only on the `age ≥ 0` branch, while the claim
attaches it to the `age < 0` branch. -/
theorem is_nonce_valid_deviates_from_claimed :
    (fastd_method_is_nonce_valid confW 999999 sC3 (nonceW 3)).isSome = true ∧
      is_nonce_valid_claimed confW 999999 sC3 (nonceW 3) = false := by decide

/-- Claim C3 (amended): `fastd_method_is_nonce_valid` accepts iff (a) the
candidate's low-bit parity matches the receive direction, and (b) either
the candidate is newer than the last accepted (`age < 0`) —
unconditionally, with no time limit — or the candidate is older by at
most `reorder_count` positions and the last accepted packet lies within
the `reorder_time` window; `age` is the little-endian difference of
`receive_nonce` and the candidate, divided by 2, and is returned on
acceptance. -/
theorem is_nonce_valid_characterization (conf : Conf) (now : Int)
    (s : MethodCommon) (n : Nonce) :
    fastd_method_is_nonce_valid conf now s n =
      (if (n.b0 &&& 1) = (s.receive_nonce.b0 &&& 1) ∧
          ((s.receive_nonce.leVal - n.leVal).tdiv 2 < 0 ∨
           (timespec_diff now s.receive_last ≤ (conf.reorder_time : Int) * 1000 ∧
            (s.receive_nonce.leVal - n.leVal).tdiv 2 ≤ (conf.reorder_count : Int)))
       then some ((s.receive_nonce.leVal - n.leVal).tdiv 2) else none) := by
  rw [fastd_method_is_nonce_valid]
  by_cases hp : (n.b0 &&& 1) = (s.receive_nonce.b0 &&& 1)
  · rw [if_neg (by simpa using hp)]
    simp only [nonceDiff_eq_leVal]
    set age := (s.receive_nonce.leVal - n.leVal).tdiv 2 with hage
    rcases le_or_lt 0 age with h0 | h0
    · rw [if_pos h0]
      by_cases ht : timespec_diff now s.receive_last > (conf.reorder_time : Int) * 1000
      · rw [if_pos ht, if_neg (by omega)]
      · rw [if_neg ht]
        by_cases hc : age > (conf.reorder_count : Int)
        · rw [if_pos hc, if_neg (by omega)]
        · rw [if_neg hc, if_pos (by omega)]
    · rw [if_neg (by omega), if_pos (by omega)]
  · rw [if_pos (by simpa using hp), if_neg (by tauto)]

/-- Claim C5 (counterexample): with long-term keys `A`, `B`, handshake
keys `X`, `Y` and point `sigma` all pairwise distinct, the session secret
installed by the `establish` call of `finish_handshake` is not the hash
of `X || Y || A || B || sigma` — the code hashes the long-term keys
first. -/
theorem session_secret_order_counterexample :
    ((finish_handshake_establish menvW (fun l => l) true (rep32 1) (rep32 2)
        (rep32 3) (rep32 4) (rep32 5) resetPeerState).1).session.method_state ≠
      some ⟨rep32 3 ++ rep32 4 ++ rep32 1 ++ rep32 2 ++ rep32 5, true⟩ := by
  decide

/-- Claim C5 (amended): both sides derive the same session secret in
`establish`, namely `S = H( A || B || X || Y || sigma )` with the
long-term keys first — initiator long-term key `A`, responder long-term
key `B`, initiator handshake key `X`, responder handshake key `Y`, then
the encoded point — where `H` is SHA-256.  `finish_handshake` (initiator,
local long-term key `A`, local handshake key `X`) and
`handle_finish_handshake` (responder, local long-term key `B`, local
handshake key `Y`) install method states with this same secret. -/
theorem session_secret_agreement (menv : MethodEnv) (H : List Nat → List Nat)
    (A B X Y sigma : List Nat) (stI stR : PeerState) :
    ((finish_handshake_establish menv H true A B X Y sigma stI).1).session.method_state =
        some ⟨H (A ++ B ++ X ++ Y ++ sigma), true⟩ ∧
      ((handle_finish_establish menv H true B A Y X sigma stR).1).session.method_state =
        some ⟨H (A ++ B ++ X ++ Y ++ sigma), false⟩ := by
  constructor
  · rw [finish_handshake_establish, establish]
    split
    · exact absurd rfl ‹¬(true = true)›
    · split <;> rfl
  · rw [handle_finish_establish, establish]
    split
    · exact absurd rfl ‹¬(true = true)›
    · split <;> rfl

/-- Claim C9 (counterexample): `establish` does not bind the remote
address first — on a peer with a valid current session the trace is
session-move, method-state install, peer-seen, and only then the address
claim; and a failed claim does not leave the session state as if
`establish` had not been called: the peer is reset, so the session that
existed before the call is destroyed. -/
theorem establish_claim_order_counterexample :
    ¬((establish menvW (fun l => l) false true [1] [2] [3] [4] [5] stC9).2.findIdx
          (· == Event.claim_address) <
        (establish menvW (fun l => l) false true [1] [2] [3] [4] [5] stC9).2.findIdx
          (· == Event.install_method_state)) ∧
      (establish menvW (fun l => l) false true [1] [2] [3] [4] [5] stC9).1 ≠ stC9 := by
  decide

/-- Claim C9 (amended): `establish` reshapes the session pair and
installs the fresh method state before binding the remote address (the
install event strictly precedes the claim event in every run); if the
address claim fails because the address is owned by a different fixed
peer, the peer is reset and is left with no session at all — including
any session that existed before the call. -/
theorem establish_claim_order (menv : MethodEnv) (H : List Nat → List Nat)
    (claimOk initiator : Bool) (a b x y sigma : List Nat) (st : PeerState) :
    ((establish menv H claimOk initiator a b x y sigma st).2.findIdx
          (· == Event.install_method_state) <
        (establish menv H claimOk initiator a b x y sigma st).2.findIdx
          (· == Event.claim_address)) ∧
      (claimOk = false →
        (establish menv H claimOk initiator a b x y sigma st).1 = resetPeerState) := by
  cases claimOk <;> cases initiator <;>
    · rw [establish]
      split <;> split <;>
        first
          | exact absurd (by decide) ‹¬¬(false = true)›
          | refine ⟨by simp only [List.findIdx_cons, List.cons_append, List.nil_append] <;> decide, ?_⟩ <;>
              first
                | exact fun _ => rfl
                | exact fun h => absurd h (by decide)

/-- Witness for `establish_claim_order` with a failing address claim on
the concrete state `stC9`. -/
theorem establish_claim_order_witness :
    ((establish menvW (fun l => l) false false [1] [2] [3] [4] [5] stC9).2.findIdx
          (· == Event.install_method_state) <
        (establish menvW (fun l => l) false false [1] [2] [3] [4] [5] stC9).2.findIdx
          (· == Event.claim_address)) ∧
      (establish menvW (fun l => l) false false [1] [2] [3] [4] [5] stC9).1 =
        resetPeerState :=
  ⟨(establish_claim_order menvW (fun l => l) false false [1] [2] [3] [4] [5] stC9).1,
   (establish_claim_order menvW (fun l => l) false false [1] [2] [3] [4] [5] stC9).2 rfl⟩

/-- Claim C6 (counterexample): on a peer whose current session was
initiated locally and whose handshake is not yet confirmed
(`handshakes_cleaned = false`) but whose previous session is absent,
`protocol_send` encrypts with the current session — the claimed
condition (initiator and not confirmed) holds, yet the previous session
is not used, because the code's actual condition is the validity of the
previous session. -/
theorem send_session_selection_counterexample :
    (session_is_initiator stC9.session = true ∧
        stC9.session.handshakes_cleaned = false) ∧
      Event.use_old ∉ (protocol_send menvW true true true stC9 0 1).2 ∧
      Event.use_current ∈ (protocol_send menvW true true true stC9 0 1).2 := by
  decide

/-- Claim C6 (amended): `protocol_send` encrypts with the previous
session iff the local side is the initiator of the current session and
the previous session is valid; in every other case it encrypts with the
current session.  (On reachable states a valid previous session implies
an unconfirmed handshake, but the converse fails, e.g. for a first
session with no predecessor.) -/
theorem send_session_selection (menv : MethodEnv) (encO encC : Bool)
    (st : PeerState) (b bEnc : Nat)
    (hvalid : is_session_valid menv st.session = true) :
    (Event.use_old ∈ (protocol_send menv true encO encC st b bEnc).2 ↔
        (session_is_initiator st.session = true ∧
          is_session_valid menv st.old_session = true)) ∧
      (Event.use_current ∈ (protocol_send menv true encO encC st b bEnc).2 ↔
        ¬(session_is_initiator st.session = true ∧
            is_session_valid menv st.old_session = true)) := by
  have hold := check_session_refresh_old menv st
  have hini := check_session_refresh_initiator menv st
  rw [protocol_send, if_neg (by simp [hvalid])]
  by_cases hsel : session_is_initiator st.session = true ∧
      is_session_valid menv st.old_session = true
  · rw [if_pos (by rw [hini, hold]; exact hsel)]
    rcases check_session_refresh_events menv st with hev | hev <;>
      cases encO <;>
        simp [hev, hsel, List.mem_append]
  · rw [if_neg (by rw [hini, hold]; exact hsel)]
    rcases check_session_refresh_events menv st with hev | hev <;>
      cases encC <;>
        simp [hev, hsel, List.mem_append]

/-- Witness for `send_session_selection` on the concrete state `stC9`
(valid current session, no previous session). -/
theorem send_session_selection_witness :
    (Event.use_old ∈ (protocol_send menvW true true true stC9 0 1).2 ↔
        (session_is_initiator stC9.session = true ∧
          is_session_valid menvW stC9.old_session = true)) ∧
      (Event.use_current ∈ (protocol_send menvW true true true stC9 0 1).2 ↔
        ¬(session_is_initiator stC9.session = true ∧
            is_session_valid menvW stC9.old_session = true)) :=
  send_session_selection menvW true true stC9 0 1 (by decide)

/-- Auxiliary: if the type-2 lookup produced `finish k p`, then `k` is
the current pool entry — valid and matching the recipient handshake
key — or, failing that, the previous pool entry, valid and matching. -/
theorem locate_cases_finish (now : Int) (pst : ProtocolState) (h : Handshake)
    (k : HandshakeKey) (p : List Nat)
    (he : locate_handshake_key now pst h HandshakeAction.finish =
      HandshakeAction.finish k p) :
    (k = pst.handshake_key ∧
      is_handshake_key_valid now pst.handshake_key = true ∧
      pst.handshake_key.public_key = h.receipient_handshake_key.data) ∨
    (k = pst.prev_handshake_key ∧
      is_handshake_key_valid now pst.prev_handshake_key = true ∧
      pst.prev_handshake_key.public_key = h.receipient_handshake_key.data ∧
      ¬(is_handshake_key_valid now pst.handshake_key = true ∧
        pst.handshake_key.public_key = h.receipient_handshake_key.data)) := by
  rw [locate_handshake_key] at he
  split_ifs at he with h1 h2
  · injection he with hk hp
    exact Or.inl ⟨hk.symm, h1.1, h1.2⟩
  · injection he with hk hp
    exact Or.inr ⟨hk.symm, h2.1, h2.2, h1⟩

/-- Auxiliary: the statement of `locate_cases_finish` for the type-3
lookup. -/
theorem locate_cases_handle_finish (now : Int) (pst : ProtocolState)
    (h : Handshake) (k : HandshakeKey) (p : List Nat)
    (he : locate_handshake_key now pst h HandshakeAction.handle_finish =
      HandshakeAction.handle_finish k p) :
    (k = pst.handshake_key ∧
      is_handshake_key_valid now pst.handshake_key = true ∧
      pst.handshake_key.public_key = h.receipient_handshake_key.data) ∨
    (k = pst.prev_handshake_key ∧
      is_handshake_key_valid now pst.prev_handshake_key = true ∧
      pst.prev_handshake_key.public_key = h.receipient_handshake_key.data ∧
      ¬(is_handshake_key_valid now pst.handshake_key = true ∧
        pst.handshake_key.public_key = h.receipient_handshake_key.data)) := by
  rw [locate_handshake_key] at he
  split_ifs at he with h1 h2
  · injection he with hk hp
    exact Or.inl ⟨hk.symm, h1.1, h1.2⟩
  · injection he with hk hp
    exact Or.inr ⟨hk.symm, h2.1, h2.2, h1⟩

/-- Auxiliary: the type-2 lookup never produces a `handle_finish`
outcome. -/
theorem locate_finish_ne_handle (now : Int) (pst : ProtocolState)
    (h : Handshake) (k : HandshakeKey) (p : List Nat)
    (he : locate_handshake_key now pst h HandshakeAction.finish =
      HandshakeAction.handle_finish k p) : False := by
  rw [locate_handshake_key] at he
  split_ifs at he

/-- Auxiliary: the type-3 lookup never produces a `finish` outcome. -/
theorem locate_handle_ne_finish (now : Int) (pst : ProtocolState)
    (h : Handshake) (k : HandshakeKey) (p : List Nat)
    (he : locate_handshake_key now pst h HandshakeAction.handle_finish =
      HandshakeAction.finish k p) : False := by
  rw [locate_handshake_key] at he
  split_ifs at he

set_option maxHeartbeats 1000000 in
/-- Auxiliary: the record checks preceding any dispatch of a type-2 or
type-3 message: a non-dropped reply carries a 32-byte recipient key equal
to the local key, a 32-byte recipient handshake key and a 32-byte T. -/
theorem dispatch_reply_records (localPub : List Nat)
    (matchSender : List Nat → Bool) (now : Int) (pst : ProtocolState)
    (h : Handshake) (hty : h.type = 2 ∨ h.type = 3)
    (hc : protocol_handshake_dispatch localPub matchSender now pst h ≠
      HandshakeAction.drop) :
    h.receipient_key.length = 32 ∧ h.receipient_key.data = localPub ∧
      h.receipient_handshake_key.length = 32 ∧ h.record_t.length = 32 := by
  rw [protocol_handshake_dispatch] at hc
  split_ifs at hc <;>
    first
      | exact absurd rfl hc
      | (refine ⟨?_, ?_, ?_, ?_⟩ <;> simp_all [has_field] <;> omega)

set_option maxHeartbeats 1000000 in
/-- Claim C8: `protocol_handshake_handle` reaches a cryptographic handler
only if the message carries a 32-byte sender key and a 32-byte sender
handshake key; for types 2 and 3 additionally a 32-byte recipient key
equal to the local public key, a 32-byte recipient handshake key and a
32-byte T record; the handshake key handed to the type-2/3 handlers is
located by matching the recipient handshake key against the current and
then the previous pool entry, each required to be valid; and messages of
unknown types are dropped. -/
theorem handshake_gating (localPub : List Nat) (matchSender : List Nat → Bool)
    (now : Int) (fs fp : List Nat) (pst0 : ProtocolState) (h : Handshake) :
    ((protocol_handshake_handle localPub matchSender now fs fp pst0 h).2 ≠
        HandshakeAction.drop →
      h.sender_key.length = 32 ∧ h.sender_handshake_key.length = 32) ∧
    ((h.type = 2 ∨ h.type = 3) →
      (protocol_handshake_handle localPub matchSender now fs fp pst0 h).2 ≠
        HandshakeAction.drop →
      h.receipient_key.length = 32 ∧ h.receipient_key.data = localPub ∧
        h.receipient_handshake_key.length = 32 ∧ h.record_t.length = 32) ∧
    (∀ k p,
      (protocol_handshake_handle localPub matchSender now fs fp pst0 h).2 =
          HandshakeAction.finish k p ∨
        (protocol_handshake_handle localPub matchSender now fs fp pst0 h).2 =
          HandshakeAction.handle_finish k p →
      (k = (maintenance now fs fp pst0).handshake_key ∧
        is_handshake_key_valid now (maintenance now fs fp pst0).handshake_key = true ∧
        (maintenance now fs fp pst0).handshake_key.public_key =
          h.receipient_handshake_key.data) ∨
      (k = (maintenance now fs fp pst0).prev_handshake_key ∧
        is_handshake_key_valid now (maintenance now fs fp pst0).prev_handshake_key = true ∧
        (maintenance now fs fp pst0).prev_handshake_key.public_key =
          h.receipient_handshake_key.data ∧
        ¬(is_handshake_key_valid now (maintenance now fs fp pst0).handshake_key = true ∧
          (maintenance now fs fp pst0).handshake_key.public_key =
            h.receipient_handshake_key.data))) ∧
    (h.type ≠ 1 → h.type ≠ 2 → h.type ≠ 3 →
      (protocol_handshake_handle localPub matchSender now fs fp pst0 h).2 =
        HandshakeAction.drop) := by
  have hr : (protocol_handshake_handle localPub matchSender now fs fp pst0 h).2 =
      protocol_handshake_dispatch localPub matchSender now
        (maintenance now fs fp pst0) h := rfl
  rw [hr]
  refine ⟨?_, fun hty hc => dispatch_reply_records _ _ _ _ _ hty hc, ?_, ?_⟩
  · intro hc
    rw [protocol_handshake_dispatch] at hc
    split_ifs at hc <;>
      first
        | exact absurd rfl hc
        | (constructor <;> simp_all [has_field])
  · rintro k p (hh | hh) <;>
      · rw [protocol_handshake_dispatch] at hh
        split_ifs at hh <;>
          first
            | exact HandshakeAction.noConfusion hh
            | exact locate_cases_finish _ _ _ _ _ hh
            | exact locate_cases_handle_finish _ _ _ _ _ hh
            | exact (locate_finish_ne_handle _ _ _ _ _ hh).elim
            | exact (locate_handle_ne_finish _ _ _ _ _ hh).elim
  · intro hn1 hn2 hn3
    rw [protocol_handshake_dispatch]
    split_ifs <;> first | rfl | simp_all

/-- Witness for `handshake_gating` on the concrete type-2 message `hsW`,
which is dispatched to `finish_handshake`. -/
theorem handshake_gating_witness :
    hsW.sender_key.length = 32 ∧ hsW.sender_handshake_key.length = 32 ∧
      hsW.receipient_key.data = rep32 9 :=
  ⟨((handshake_gating (rep32 9) (fun _ => true) 1000 [] [] pstW hsW).1 (by decide)).1,
   ((handshake_gating (rep32 9) (fun _ => true) 1000 [] [] pstW hsW).1 (by decide)).2,
   ((handshake_gating (rep32 9) (fun _ => true) 1000 [] [] pstW hsW).2.1
     (Or.inl rfl) (by decide)).2.1⟩

set_option maxHeartbeats 1000000 in
/-- Claim C10: whenever a recipient-key record of length 32 is present
with a value different from the local public key, the message is dropped
regardless of its type; for a type-1 message the record itself is
optional — a type-1 message without it (and with a known sender key and a
32-byte sender handshake key) is answered by `respond_handshake` with the
current pool key. -/
theorem recipient_key_check_all_types (localPub : List Nat)
    (matchSender : List Nat → Bool) (now : Int) (fs fp : List Nat)
    (pst0 : ProtocolState) (h : Handshake)
    (hlen : h.receipient_key.length = 32)
    (hne : h.receipient_key.data ≠ localPub) :
    (protocol_handshake_handle localPub matchSender now fs fp pst0 h).2 =
        HandshakeAction.drop ∧
      ∀ h1 : Handshake, h1.type = 1 → h1.sender_key.length = 32 →
        matchSender h1.sender_key.data = true → h1.receipient_key.length ≠ 32 →
        h1.sender_handshake_key.length = 32 →
        (protocol_handshake_handle localPub matchSender now fs fp pst0 h1).2 =
          HandshakeAction.respond (maintenance now fs fp pst0).handshake_key
            h1.sender_handshake_key.data := by
  constructor
  · have hr : (protocol_handshake_handle localPub matchSender now fs fp pst0 h).2 =
        protocol_handshake_dispatch localPub matchSender now
          (maintenance now fs fp pst0) h := rfl
    rw [hr, protocol_handshake_dispatch]
    split_ifs <;> first | rfl | simp_all [has_field]
  · intro h1 ht hsk hm hrk hshk
    have hr : (protocol_handshake_handle localPub matchSender now fs fp pst0 h1).2 =
        protocol_handshake_dispatch localPub matchSender now
          (maintenance now fs fp pst0) h1 := rfl
    rw [hr, protocol_handshake_dispatch]
    split_ifs <;> first | rfl | simp_all [has_field]

/-- Witness for `recipient_key_check_all_types`: the concrete type-1
message `hsBad` carries a recipient key other than the local public key
and is dropped. -/
theorem recipient_key_check_witness :
    (protocol_handshake_handle (rep32 9) (fun _ => true) 1000 [] [] pstW hsBad).2 =
      HandshakeAction.drop :=
  (recipient_key_check_all_types (rep32 9) (fun _ => true) 1000 [] [] pstW hsBad
    rfl (by decide)).1

/-- Auxiliary: the events of `check_session_refresh` never dispose of a
buffer. -/
theorem countP_refresh (menv : MethodEnv) (st : PeerState) (b : Nat) :
    List.countP (disposesBuf b) (check_session_refresh menv st).2 = 0 := by
  rcases check_session_refresh_events menv st with h | h <;> rw [h] <;> rfl

set_option maxHeartbeats 2000000 in
set_option maxRecDepth 8000 in
/-- Claim C4: every code path of `protocol_handle_recv` and
`protocol_send` — every error branch included — frees or hands off the
packet buffer exactly once.  The input buffer `b` (resp. `bS`) is
disposed of exactly once in every environment; the decrypted output
buffer `bOut` is disposed of exactly once exactly when a decrypt
succeeded (delivered upward when non-empty, freed when a keepalive), and
the ciphertext buffer `bEnc` exactly once exactly when an encrypt
succeeded (transmitted). -/
theorem buffer_disposed_exactly_once (menv menvS : MethodEnv)
    (est hs hsS eO eC : Bool) (dO dC : Option Nat) (st stS : PeerState)
    (b bOut bS bEnc : Nat) (hne : b ≠ bOut) (hneS : bS ≠ bEnc) :
    (disposals (protocol_handle_recv menv est hs dO dC st b bOut).2 b = 1 ∧
      disposals (protocol_handle_recv menv est hs dO dC st b bOut).2 bOut =
        (if recv_ok menv est hs dO dC st then 1 else 0)) ∧
    (disposals (protocol_send menvS hsS eO eC stS bS bEnc).2 bS = 1 ∧
      disposals (protocol_send menvS hsS eO eC stS bS bEnc).2 bEnc =
        (if send_ok menvS hsS eO eC stS then 1 else 0)) := by
  constructor
  · have h1 : (bOut == b) = false := by simpa using Ne.symm hne
    have h2 : (b == bOut) = false := by simpa using hne
    rw [protocol_handle_recv]
    cases est <;> cases hs <;> rcases dO with _ | lO <;> rcases dC with _ | lC <;>
      · repeat' split
        all_goals simp_all [disposals, List.countP_append, List.countP_cons,
          List.countP_nil, disposesBuf, recv_ok, recv_tail, countP_refresh]
        all_goals repeat' split
        all_goals simp_all [disposals, List.countP_append, List.countP_cons,
          List.countP_nil, disposesBuf]
  · have h1 : (bEnc == bS) = false := by simpa using Ne.symm hneS
    have h2 : (bS == bEnc) = false := by simpa using hneS
    simp only [protocol_send]
    cases hsS <;> cases eO <;> cases eC <;>
      · repeat' split
        all_goals simp_all [disposals, List.countP_append, List.countP_cons,
          List.countP_nil, disposesBuf, send_ok, countP_refresh,
          check_session_refresh_initiator, check_session_refresh_old]

/-- Witness for `buffer_disposed_exactly_once` on a concrete receive (a
current-session keepalive decrypt) and a concrete successful send. -/
theorem buffer_disposed_exactly_once_witness :
    (disposals (protocol_handle_recv menvW true true none (some 0) stC7 0 1).2 0 = 1 ∧
      disposals (protocol_handle_recv menvW true true none (some 0) stC7 0 1).2 1 =
        (if recv_ok menvW true true none (some 0) stC7 then 1 else 0)) ∧
    (disposals (protocol_send menvW true true true stC7 2 3).2 2 = 1 ∧
      disposals (protocol_send menvW true true true stC7 2 3).2 3 =
        (if send_ok menvW true true true stC7 then 1 else 0)) :=
  buffer_disposed_exactly_once menvW menvW true true true true true none (some 0)
    stC7 stC7 0 1 2 3 (by decide) (by decide)

set_option maxHeartbeats 2000000 in
set_option maxRecDepth 8000 in
/-- Auxiliary: once a peer's old-session method state is NULL, no run of
`protocol_handle_recv` ever attempts a decrypt on the old session. -/
theorem old_session_none_no_decrypt (menv2 : MethodEnv) (est2 hs2 : Bool)
    (dO2 dC2 : Option Nat) (stp : PeerState) (b2 bOut2 : Nat)
    (hnone : stp.old_session.method_state = none) :
    Event.decrypt_old ∉ (protocol_handle_recv menv2 est2 hs2 dO2 dC2 stp b2 bOut2).2 := by
  have hold : is_session_valid menv2 stp.old_session = false := by
    rw [is_session_valid, hnone]
  rw [protocol_handle_recv]
  cases est2 <;> cases hs2 <;> rcases dC2 with _ | l <;>
    · repeat' split
      all_goals simp_all [List.mem_append, recv_tail, check_session_refresh]
      all_goals repeat' split
      all_goals simp_all

set_option maxHeartbeats 4000000 in
set_option maxRecDepth 8000 in
/-- Claim C7: on an established peer with a valid current session,
`protocol_handle_recv` attempts decryption on the previous session first
(when it is valid) and on the current session only if that fails; on a
successful current-session decrypt with `handshakes_cleaned` false it
deletes the peer's scheduled handshakes, sets `handshakes_cleaned`, sends
a zero-length confirmation when the local side is the initiator, and
frees the previous session — whose method state is NULL afterwards, so no
later run ever attempts a decrypt on it; a successful decrypt with empty
plaintext is a keepalive: its buffer is freed and nothing is delivered
upward. -/
theorem handle_recv_behavior (menv : MethodEnv) (dO dC : Option Nat)
    (st : PeerState) (b bOut : Nat)
    (hvalid : is_session_valid menv st.session = true) :
    (((protocol_handle_recv menv true true dO dC st b bOut).2.filter
        (fun e => e == Event.decrypt_old || e == Event.decrypt_current) =
      (if is_session_valid menv st.old_session = true then
        (if dO.isSome = true then [Event.decrypt_old]
         else [Event.decrypt_old, Event.decrypt_current])
       else [Event.decrypt_current])) ∧
    (¬(is_session_valid menv st.old_session = true ∧ dO.isSome = true) →
      dC.isSome = true → st.session.handshakes_cleaned = false →
      Event.delete_peer_handshakes ∈ (protocol_handle_recv menv true true dO dC st b bOut).2 ∧
      (protocol_handle_recv menv true true dO dC st b bOut).1.session.handshakes_cleaned = true ∧
      (session_is_initiator st.session = true →
        Event.send_confirm ∈ (protocol_handle_recv menv true true dO dC st b bOut).2)) ∧
    (¬(is_session_valid menv st.old_session = true ∧ dO.isSome = true) →
      dC.isSome = true →
      (protocol_handle_recv menv true true dO dC st b bOut).1.old_session.method_state = none) ∧
    ((is_session_valid menv st.old_session = true ∧ dO = some 0) ∨
      (¬(is_session_valid menv st.old_session = true ∧ dO.isSome = true) ∧ dC = some 0) →
      Event.free bOut ∈ (protocol_handle_recv menv true true dO dC st b bOut).2 ∧
      Event.deliver bOut ∉ (protocol_handle_recv menv true true dO dC st b bOut).2)) ∧
    (∀ (menv2 : MethodEnv) (est2 hs2 : Bool) (dO2 dC2 : Option Nat)
        (stp : PeerState) (b2 bOut2 : Nat),
      stp.old_session.method_state = none →
      Event.decrypt_old ∉ (protocol_handle_recv menv2 est2 hs2 dO2 dC2 stp b2 bOut2).2) := by
  refine ⟨?_, fun menv2 est2 hs2 dO2 dC2 stp b2 bOut2 hnone =>
    old_session_none_no_decrypt menv2 est2 hs2 dO2 dC2 stp b2 bOut2 hnone⟩
  rw [protocol_handle_recv]
  rcases dO with _ | lO <;> rcases dC with _ | lC <;>
    · repeat' split
      all_goals simp_all [List.filter_append, List.filter_cons, List.mem_append,
        recv_tail, check_session_refresh]
      all_goals repeat' split
      all_goals simp_all [List.mem_append]

/-- Witness for `handle_recv_behavior`: a current-session keepalive
decrypt on the concrete state `stC7` deletes the scheduled handshakes and
frees the old session. -/
theorem handle_recv_behavior_witness :
    Event.delete_peer_handshakes ∈
        (protocol_handle_recv menvW true true none (some 0) stC7 0 1).2 ∧
      (protocol_handle_recv menvW true true none (some 0) stC7 0 1).1.old_session.method_state =
        none :=
  ⟨((handle_recv_behavior menvW none (some 0) stC7 0 1 (by decide)).1.2.1
      (by decide) (by decide) (by decide)).1,
   (handle_recv_behavior menvW none (some 0) stC7 0 1 (by decide)).1.2.2.1
      (by decide) (by decide)⟩

end Fastd
